import Mathlib

/-!
Shallow embedding of the hybrid batch-processing pipeline of
`src/index.js` (creative_automation_poc).

External collaborators (Firefly upload/expand, Photoshop mask creation,
Firefly fill, S3 presigning, text overlay, the file system and the wall
clock) are modelled by an `Oracle` of pure functions giving the outcome
of each call; the orchestration logic itself is translated line by line
from `index.js`.
-/

deriving instance DecidableEq for Except

namespace CA

/-- One target region of a product category (campaign configuration). -/
structure Region where
  code : String
  background_prompt : String
  message : String
  locale : String
deriving DecidableEq, Repr

/-- Configuration entry of one product category (`brief.product_categories[c]`). -/
structure CategoryConfig where
  target_regions : List Region
deriving DecidableEq, Repr

/-- The campaign brief: category configuration plus configured aspect ratios. -/
structure Brief where
  product_categories : List (String × CategoryConfig)
  aspect_ratios : List String
deriving DecidableEq, Repr

/-- Origin of an asset: a pre-existing local file or a synthetically generated image. -/
inductive AssetType where
  | localFile
  | generated
deriving DecidableEq, Repr

/-- An asset reference as built by `getAssetReferences` in `index.js`:
local assets carry a path, generated assets carry a download URL and the
single aspect ratio they were generated for. -/
structure AssetRef where
  type : AssetType
  path : String
  category : String
  filename : String
  isGenerated : Bool
  downloadUrl : String
  aspectRatio : Option String
deriving DecidableEq, Repr

/-- A prepared asset: the value a fulfilled Phase-1 task resolves to
(`index.js` lines 207-221 and 263-271). -/
structure PreparedAsset where
  assetRef : AssetRef
  region : Region
  ratio : String
  assetName : String
  imageUrl : String
  needsMask : Bool
deriving DecidableEq, Repr

/-- A masked asset: `{...asset, maskUrl}` as pushed by `sequentialMaskCreation`;
`maskUrl` is `none` on the generated-asset pass-through branch. -/
structure MaskedAsset where
  asset : PreparedAsset
  maskUrl : Option String
deriving DecidableEq, Repr

/-- A success record of the final report (subset of the fields of
`processFillAndOverlay`'s `data` object that the verified claims mention). -/
structure SuccessData where
  assetName : String
  productCategory : String
  region : String
  aspectRatio : String
  presignedGetUrl : String
  message : String
  isGenerated : Bool
deriving DecidableEq, Repr

/-- A failure record of the final report (`processFillAndOverlay`'s `error` object). -/
structure FailureData where
  assetName : String
  productCategory : String
  region : String
  aspectRatio : String
  error : String
deriving DecidableEq, Repr

/-- The `summary` block of the final report. -/
structure Summary where
  total : Nat
  processed : Nat
  succeeded : Nat
  failed : Nat
deriving DecidableEq, Repr

/-- The `BatchResult` report built by `parallelFillAndOverlay`. -/
structure BatchResult where
  success : List SuccessData
  failures : List FailureData
  summary : Summary
deriving DecidableEq, Repr

/-- Outcomes of all external collaborator calls, plus the wall clock:
each field models one awaited call of `index.js` as a pure function of
its arguments.  `maskDuration` gives the (abstract, milliseconds) time a
`createMask` call takes; `timestamp` is the run timestamp string. -/
structure Oracle where
  fsExists : String → Bool
  fsRead : String → Except String Nat
  uploadExpand : AssetRef → Region → String → Except String String
  createMask : PreparedAsset → Except String String
  maskDuration : PreparedAsset → Nat
  fillImage : MaskedAsset → Except String String
  getPresignedPutUrl : MaskedAsset → Except String String
  addTextOverlay : String → String → String → Except String Unit
  getPresignedGetUrl : MaskedAsset → Except String String
  timestamp : String

/-- The success payload of an `Except`, if any. -/
def okPart : Except ε α → Option α
  | .ok a => some a
  | .error _ => none

/-- The error payload of an `Except`, if any. -/
def errPart : Except ε α → Option ε
  | .ok _ => none
  | .error e => some e

/-- `path.basename`: the final component of a slash-separated path. -/
def basename (p : String) : String :=
  (p.splitOn "/").getLastD p

/-- The asset-loading block of `parallelUploadAndExpand` (`index.js` lines
179-197): returns the asset name, or the thrown error message.  A local
file that does not exist throws `Local image file not found`; a local
file whose buffer is empty throws `Empty image buffer`; generated assets
never fail to load. -/
def loadAsset (o : Oracle) (a : AssetRef) : Except String String :=
  match a.type with
  | .localFile =>
    if o.fsExists a.path = false then .error "Local image file not found"
    else
      match o.fsRead a.path with
      | .error e => .error e
      | .ok len =>
        if len = 0 then .error "Empty image buffer"
        else .ok (basename a.path)
  | .generated => .ok a.filename

/-- A Phase-1 unit of work: either an already-resolved prepared asset
(the generated-asset fast path, `index.js` lines 207-216) or a pending
`uploadAndExpandSingle` call (lines 217-221). -/
inductive Task where
  | resolved (p : PreparedAsset)
  | callUpload (a : AssetRef) (region : Region) (ratio : String) (assetName : String)
deriving DecidableEq, Repr

/-- The (region × ratio) the task belongs to: its aspect ratio. -/
def Task.taskRatio : Task → String
  | .resolved p => p.ratio
  | .callUpload _ _ r _ => r

/-- The Phase-1 tasks one asset reference contributes (`index.js` lines
171-224): nothing if its category is unconfigured (line 173) or its load
fails (line 196); otherwise one task per (region, ratio), skipping the
ratios a generated asset was not generated for (line 203). -/
def expandTasksForAsset (o : Oracle) (brief : Brief) (a : AssetRef) : List Task :=
  match brief.product_categories.lookup a.category with
  | none => []
  | some cfg =>
    match loadAsset o a with
    | .error _ => []
    | .ok assetName =>
      cfg.target_regions.flatMap (fun region =>
        brief.aspect_ratios.filterMap (fun ratio =>
          if a.isGenerated = true ∧ a.aspectRatio ≠ some ratio then none
          else if a.isGenerated = true then
            some (Task.resolved
              { assetRef := a, region := region, ratio := ratio,
                assetName := assetName, imageUrl := a.downloadUrl,
                needsMask := false })
          else some (Task.callUpload a region ratio assetName)))

/-- All Phase-1 tasks of a batch, in asset, then region, then ratio order. -/
def uploadExpandTasks (o : Oracle) (brief : Brief) (refs : List AssetRef) : List Task :=
  refs.flatMap (expandTasksForAsset o brief)

/-- The settled outcome of one Phase-1 task: resolved tasks are already
fulfilled; `callUpload` tasks fulfill with the prepared asset built from
the expanded-image URL, or reject with the call's error
(`uploadAndExpandSingle`, `index.js` lines 247-282). -/
def taskOutcome (o : Oracle) : Task → Except String PreparedAsset
  | .resolved p => .ok p
  | .callUpload a region ratio assetName =>
    match o.uploadExpand a region ratio with
    | .ok url =>
      .ok { assetRef := a, region := region, ratio := ratio,
            assetName := assetName, imageUrl := url, needsMask := true }
    | .error e => .error e

/-- Phase 1 (`parallelUploadAndExpand`, `index.js` lines 168-244):
`Promise.allSettled` over all tasks, keeping the fulfilled values in task
order and dropping rejections (which are only logged, lines 234-239). -/
def parallelUploadAndExpand (o : Oracle) (brief : Brief) (refs : List AssetRef) :
    List PreparedAsset :=
  ((uploadExpandTasks o brief refs).map (taskOutcome o)).filterMap okPart

/-- One `createMask` invocation of Phase 2, with its abstract start and
end times, its input position `idx` among the prepared assets, and
whether it succeeded. -/
structure MaskEvent where
  idx : Nat
  startTime : Nat
  endTime : Nat
  ok : Bool
deriving DecidableEq, Repr

/-- The running state of Phase 2: the clock, the masked assets collected
so far, the `createMask` call events, and the `logger.error` messages of
failed mask creations (`index.js` line 327). -/
structure MaskState where
  time : Nat
  masked : List MaskedAsset
  calls : List MaskEvent
  errorLog : List String
deriving DecidableEq, Repr

/-- One iteration of the Phase-2 loop (`index.js` lines 290-333) on the
asset at position `i` of `n`: a `needsMask` asset calls `createMask`
(pushing on success, logging on failure), then sleeps 200ms when the call
succeeded and the asset is not the last (the sleep at line 323 sits
inside the `try`, so a thrown `createMask` skips it); a pass-through
asset is pushed with a null mask and no call and no sleep. -/
def maskStep (o : Oracle) (n i : Nat) (st : MaskState) (a : PreparedAsset) : MaskState :=
  if a.needsMask = true then
    let fin := st.time + o.maskDuration a
    match o.createMask a with
    | .ok url =>
      { time := if i < n - 1 then fin + 200 else fin,
        masked := st.masked ++ [{ asset := a, maskUrl := some url }],
        calls := st.calls ++ [{ idx := i, startTime := st.time, endTime := fin, ok := true }],
        errorLog := st.errorLog }
    | .error e =>
      { time := fin,
        masked := st.masked,
        calls := st.calls ++ [{ idx := i, startTime := st.time, endTime := fin, ok := false }],
        errorLog := st.errorLog ++ [e] }
  else
    { st with masked := st.masked ++ [{ asset := a, maskUrl := none }] }

/-- The Phase-2 loop over the remaining prepared assets, starting at
position `i` of `n`. -/
def maskRun (o : Oracle) (n : Nat) : Nat → MaskState → List PreparedAsset → MaskState
  | _, st, [] => st
  | i, st, a :: rest => maskRun o n (i + 1) (maskStep o n i st a) rest

/-- Phase 2 (`sequentialMaskCreation`, `index.js` lines 285-337), started
on the full prepared-asset list with an empty state and clock 0. -/
def sequentialMaskCreation (o : Oracle) (preparedAssets : List PreparedAsset) : MaskState :=
  maskRun o preparedAssets.length 0
    { time := 0, masked := [], calls := [], errorLog := [] } preparedAssets

/-- The terminal outcome the Phase-2 loop body gives one prepared asset:
its masked record, or the error message of its failed `createMask` call. -/
def maskOutcomeOf (o : Oracle) (p : PreparedAsset) : Except String MaskedAsset :=
  if p.needsMask = true then
    match o.createMask p with
    | .ok url => .ok { asset := p, maskUrl := some url }
    | .error e => .error e
  else .ok { asset := p, maskUrl := none }

/-- One Phase-3 unit (`processFillAndOverlay`, `index.js` lines 377-444):
fill the background when the asset needs a mask and has one, then
presign, overlay and presign again; every thrown error is caught and
returned as a failure record. -/
def processFillAndOverlay (o : Oracle) (m : MaskedAsset) : Except FailureData SuccessData :=
  let a := m.asset
  let body : Except String SuccessData := do
    let imageUrl ←
      if a.needsMask && m.maskUrl.isSome then o.fillImage m else Except.ok a.imageUrl
    let putUrl ← o.getPresignedPutUrl m
    let _ ← o.addTextOverlay imageUrl putUrl a.region.message
    let getUrl ← o.getPresignedGetUrl m
    Except.ok
      { assetName := a.assetName, productCategory := a.assetRef.category,
        region := a.region.code, aspectRatio := a.ratio,
        presignedGetUrl := getUrl, message := a.region.message,
        isGenerated := a.assetRef.isGenerated }
  match body with
  | .ok d => .ok d
  | .error e =>
    .error { assetName := a.assetName, productCategory := a.assetRef.category,
             region := a.region.code, aspectRatio := a.ratio, error := e }

/-- The settled Phase-3 results, one per masked asset, in input order. -/
def finalResults (o : Oracle) (maskedAssets : List MaskedAsset) :
    List (Except FailureData SuccessData) :=
  maskedAssets.map (processFillAndOverlay o)

/-- The `results.forEach` body of `parallelFillAndOverlay` (`index.js`
lines 362-370): push each settled result on exactly one of the two lists
and bump the matching counter. -/
def classify (acc : BatchResult) (r : Except FailureData SuccessData) : BatchResult :=
  match r with
  | .ok d =>
    { acc with success := acc.success ++ [d],
               summary := { acc.summary with succeeded := acc.summary.succeeded + 1 } }
  | .error e =>
    { acc with failures := acc.failures ++ [e],
               summary := { acc.summary with failed := acc.summary.failed + 1 } }

/-- Phase 3 (`parallelFillAndOverlay`, `index.js` lines 340-374):
`Promise.allSettled` over the fill/overlay units, then the report is
folded from the settled results, with `total := maskedAssets.length` and
`processed := results.length`. -/
def parallelFillAndOverlay (o : Oracle) (maskedAssets : List MaskedAsset) : BatchResult :=
  let results := finalResults o maskedAssets
  results.foldl classify
    { success := [], failures := [],
      summary := { total := maskedAssets.length, processed := results.length,
                   succeeded := 0, failed := 0 } }

/-- The whole pipeline (`processAssetsHybrid`, `index.js` lines 149-165). -/
def processAssetsHybrid (o : Oracle) (brief : Brief) (refs : List AssetRef) : BatchResult :=
  parallelFillAndOverlay o
    (sequentialMaskCreation o (parallelUploadAndExpand o brief refs)).masked

/-- One report file written by `main` (`index.js` lines 592-602). -/
structure RunReport where
  fileName : String
  content : BatchResult
deriving DecidableEq, Repr

/-- The post-expansion part of `main` (`index.js` lines 579-604): run the
pipeline, write the report once at the end under a timestamped name, and
finish; the returned `Nat` is the process exit status (`main().catch` at
lines 607-610 only fires on a thrown error, and per-job failures are all
converted to data before reaching `main`). -/
def mainRun (o : Oracle) (brief : Brief) (refs : List AssetRef) : List RunReport × Nat :=
  let results := processAssetsHybrid o brief refs
  ([{ fileName := "./results-hybrid-" ++ o.timestamp ++ ".json", content := results }], 0)

/-- Modelled from the spec (§3 inv. 4, §4.5): the expected-output count
from configuration cardinality alone — for every configured category,
one output per configured (region, ratio) pair.  This definition follows
the spec's words, for comparison with the `summary.total` the code
computes. -/
def specConfigTotal (brief : Brief) : Nat :=
  (brief.product_categories.map
    (fun c => c.2.target_regions.length * brief.aspect_ratios.length)).sum

/-- The slot array `Promise.allSettled` maintains: `completions` lists the
units in the order they happen to settle, each tagged with its input
index; every settlement writes its outcome into its own slot. -/
def fillSlots (n : Nat) (completions : List (Nat × α)) : List (Option α) :=
  completions.foldl (fun slots p => slots.set p.1 (some p.2)) (List.replicate n none)

/-! Helper lemmas about the final-stage aggregation fold. -/

theorem foldl_classify (rs : List (Except FailureData SuccessData)) :
    ∀ acc, rs.foldl classify acc =
      { success := acc.success ++ rs.filterMap okPart,
        failures := acc.failures ++ rs.filterMap errPart,
        summary := { total := acc.summary.total, processed := acc.summary.processed,
                     succeeded := acc.summary.succeeded + (rs.filterMap okPart).length,
                     failed := acc.summary.failed + (rs.filterMap errPart).length } } := by
  induction rs with
  | nil => intro acc; simp [okPart, errPart]
  | cons r rest ih =>
    intro acc
    rw [List.foldl_cons, ih]
    cases r with
    | ok d =>
      simp [classify, okPart, errPart, List.filterMap_cons, List.append_assoc,
        Nat.add_assoc, Nat.add_comm 1]
    | error e =>
      simp [classify, okPart, errPart, List.filterMap_cons, List.append_assoc,
        Nat.add_assoc, Nat.add_comm 1]

theorem length_okPart_add_errPart (rs : List (Except FailureData SuccessData)) :
    (rs.filterMap okPart).length + (rs.filterMap errPart).length = rs.length := by
  induction rs with
  | nil => simp
  | cons r rest ih =>
    cases r <;> simp [okPart, errPart, List.filterMap_cons] <;> omega

/-! Helper lemmas about the slot array of `Promise.allSettled`. -/

theorem set_append_len (pre : List β) (l₂ : List β) (v : β) :
    (pre ++ l₂).set pre.length v = pre ++ l₂.set 0 v := by
  induction pre with
  | nil => simp
  | cons a pre ih =>
    simp only [List.cons_append, List.length_cons, List.set_cons_succ, ih]

theorem fold_set_enumFrom (l : List α) :
    ∀ (pre : List (Option α)),
      (List.enumFrom pre.length l).foldl (fun s p => s.set p.1 (some p.2))
          (pre ++ List.replicate l.length none) = pre ++ l.map some := by
  induction l with
  | nil => intro pre; simp
  | cons a rest ih =>
    intro pre
    rw [List.enumFrom_cons, List.foldl_cons]
    show (List.enumFrom (pre.length + 1) rest).foldl (fun s p => s.set p.1 (some p.2))
        ((pre ++ (none :: List.replicate rest.length none)).set pre.length (some a)) =
      pre ++ some a :: rest.map some
    rw [set_append_len pre (none :: List.replicate rest.length none) (some a),
      List.set_cons_zero]
    have h1 : (pre ++ [some a]).length = pre.length + 1 := by simp
    have h2 := ih (pre ++ [some a])
    rw [h1] at h2
    calc (List.enumFrom (pre.length + 1) rest).foldl (fun s p => s.set p.1 (some p.2))
          (pre ++ some a :: List.replicate rest.length none)
        = (List.enumFrom (pre.length + 1) rest).foldl (fun s p => s.set p.1 (some p.2))
          ((pre ++ [some a]) ++ List.replicate rest.length none) := by
          rw [List.append_assoc]; rfl
      _ = (pre ++ [some a]) ++ rest.map some := h2
      _ = pre ++ some a :: rest.map some := by rw [List.append_assoc]; rfl

theorem fillSlots_enum (l : List α) : fillSlots l.length l.enum = l.map some := by
  have h := fold_set_enumFrom l []
  simpa [fillSlots, List.enum] using h

theorem fillSlots_of_perm (l : List α) (completions : List (Nat × α))
    (h : completions.Perm l.enum) : fillSlots l.length completions = l.map some := by
  have comm : ∀ x ∈ completions, ∀ y ∈ completions,
      ∀ z : List (Option α), (z.set x.1 (some x.2)).set y.1 (some y.2) =
        (z.set y.1 (some y.2)).set x.1 (some x.2) := by
    intro x hx y hy z
    by_cases hxy : x.1 = y.1
    · have hx2 : l[x.1]? = some x.2 := by
        have : (x.1, x.2) ∈ l.enum := h.mem_iff.mp (by simpa using hx)
        exact List.mk_mem_enum_iff_getElem?.mp this
      have hy2 : l[y.1]? = some y.2 := by
        have : (y.1, y.2) ∈ l.enum := h.mem_iff.mp (by simpa using hy)
        exact List.mk_mem_enum_iff_getElem?.mp this
      rw [hxy] at hx2
      have : x.2 = y.2 := by
        have := hx2.symm.trans hy2
        exact Option.some.inj this
      rw [hxy, this]
    · exact List.set_comm _ _ _ hxy
  have heq : List.foldl (fun slots (p : Nat × α) => slots.set p.1 (some p.2))
      (List.replicate l.length none) completions =
      List.foldl (fun slots (p : Nat × α) => slots.set p.1 (some p.2))
      (List.replicate l.length none) l.enum :=
    h.foldl_eq' comm (List.replicate l.length none)
  have h2 := fillSlots_enum l
  unfold fillSlots at h2 ⊢
  rw [heq, h2]

/-! Helper lemmas about the job expander. -/

theorem length_filterMap_ratio (g : String → Task) (r : String) :
    ∀ rs : List String,
      (rs.filterMap (fun ρ => if ρ = r then some (g ρ) else none)).length = rs.count r := by
  intro rs
  induction rs with
  | nil => simp
  | cons ρ rest ih =>
    by_cases hr : ρ = r
    · subst hr; simp [List.filterMap_cons, List.count_cons, ih]
    · simp [List.filterMap_cons, List.count_cons, hr, ih]

theorem length_flatMap_const {γ δ : Type} (rs : List γ) (f : γ → List δ) (c : Nat)
    (h : ∀ x, (f x).length = c) : (rs.flatMap f).length = rs.length * c := by
  induction rs with
  | nil => simp
  | cons x rest ih => simp [List.flatMap_cons, h, ih, Nat.succ_mul, Nat.add_comm]

/-! Helper lemmas about the sequential mask-creation stage. -/

theorem maskStep_masked (o : Oracle) (n i : Nat) (st : MaskState) (a : PreparedAsset) :
    (maskStep o n i st a).masked = st.masked ++ (okPart (maskOutcomeOf o a)).toList := by
  unfold maskStep maskOutcomeOf
  by_cases hm : a.needsMask = true
  · cases hc : o.createMask a <;> simp [hm, hc, okPart]
  · simp [hm, okPart]

theorem maskStep_errorLog (o : Oracle) (n i : Nat) (st : MaskState) (a : PreparedAsset) :
    (maskStep o n i st a).errorLog = st.errorLog ++ (errPart (maskOutcomeOf o a)).toList := by
  unfold maskStep maskOutcomeOf
  by_cases hm : a.needsMask = true
  · cases hc : o.createMask a <;> simp [hm, hc, errPart]
  · simp [hm, errPart]

theorem maskStep_calls_idx (o : Oracle) (n i : Nat) (st : MaskState) (a : PreparedAsset) :
    (maskStep o n i st a).calls.map MaskEvent.idx =
      st.calls.map MaskEvent.idx ++ (if a.needsMask = true then [i] else []) := by
  unfold maskStep
  by_cases hm : a.needsMask = true
  · cases hc : o.createMask a <;> simp [hm, hc]
  · simp [hm]

theorem maskRun_masked (o : Oracle) (n : Nat) :
    ∀ (l : List PreparedAsset) (i : Nat) (st : MaskState),
      (maskRun o n i st l).masked =
        st.masked ++ l.filterMap (fun a => okPart (maskOutcomeOf o a)) := by
  intro l
  induction l with
  | nil => intro i st; simp [maskRun]
  | cons a rest ih =>
    intro i st
    rw [maskRun, ih, maskStep_masked]
    cases h : okPart (maskOutcomeOf o a) <;>
      simp [List.filterMap_cons, h, List.append_assoc]

theorem maskRun_errorLog (o : Oracle) (n : Nat) :
    ∀ (l : List PreparedAsset) (i : Nat) (st : MaskState),
      (maskRun o n i st l).errorLog =
        st.errorLog ++ l.filterMap (fun a => errPart (maskOutcomeOf o a)) := by
  intro l
  induction l with
  | nil => intro i st; simp [maskRun]
  | cons a rest ih =>
    intro i st
    rw [maskRun, ih, maskStep_errorLog]
    cases h : errPart (maskOutcomeOf o a) <;>
      simp [List.filterMap_cons, h, List.append_assoc]

/-- The input positions, counted from `i`, of the units that invoke the
mask collaborator. -/
def idxsFrom : Nat → List PreparedAsset → List Nat
  | _, [] => []
  | i, a :: rest => (if a.needsMask = true then [i] else []) ++ idxsFrom (i + 1) rest

theorem maskRun_calls_idx (o : Oracle) (n : Nat) :
    ∀ (l : List PreparedAsset) (i : Nat) (st : MaskState),
      (maskRun o n i st l).calls.map MaskEvent.idx =
        st.calls.map MaskEvent.idx ++ idxsFrom i l := by
  intro l
  induction l with
  | nil => intro i st; simp [maskRun, idxsFrom]
  | cons a rest ih =>
    intro i st
    rw [maskRun, ih, maskStep_calls_idx, idxsFrom, List.append_assoc]

theorem mem_idxsFrom (p : PreparedAsset) (hp : p.needsMask = true) :
    ∀ (l : List PreparedAsset) (i j : Nat), l[j]? = some p → (i + j) ∈ idxsFrom i l := by
  intro l
  induction l with
  | nil => intro i j h; simp at h
  | cons a rest ih =>
    intro i j h
    cases j with
    | zero =>
      rw [List.getElem?_cons_zero] at h
      have : a = p := Option.some.inj h
      subst this
      simp [idxsFrom, hp]
    | succ j =>
      rw [List.getElem?_cons_succ] at h
      have := ih (i + 1) j h
      rw [idxsFrom]
      refine List.mem_append_right _ ?_
      have heq : i + 1 + j = i + (j + 1) := by omega
      rw [heq] at this
      exact this

/-- The gap contract between two consecutive mask-collaborator calls:
strictly later input position, chronologically after, and at least the
200ms pause when the earlier call succeeded. -/
def callGap (c₁ c₂ : MaskEvent) : Prop :=
  c₁.idx < c₂.idx ∧ c₁.endTime ≤ c₂.startTime ∧
    (c₁.ok = true → c₁.endTime + 200 ≤ c₂.startTime)

/-- The loop invariant of the Phase-2 clock: calls so far are chained by
`callGap`, bounded by the current position, and the clock has moved past
the last call (including its pause when it succeeded and was not last). -/
structure MaskInv (n i : Nat) (st : MaskState) : Prop where
  chain : List.Chain' callGap st.calls
  bounds : ∀ c ∈ st.calls, c.idx < i ∧ c.startTime ≤ c.endTime
  lastGap : ∀ c, st.calls.getLast? = some c →
    c.endTime ≤ st.time ∧ (c.ok = true → c.idx + 1 < n → c.endTime + 200 ≤ st.time)

theorem maskInv_step (o : Oracle) (n i : Nat) (st : MaskState) (a : PreparedAsset)
    (hin : i < n) (h : MaskInv n i st) : MaskInv n (i + 1) (maskStep o n i st a) := by
  by_cases hm : a.needsMask = true
  · cases hc : o.createMask a with
    | ok url =>
      have hstep : maskStep o n i st a =
          { time := if i < n - 1 then st.time + o.maskDuration a + 200
                    else st.time + o.maskDuration a,
            masked := st.masked ++ [{ asset := a, maskUrl := some url }],
            calls := st.calls ++ [{ idx := i, startTime := st.time,
                                    endTime := st.time + o.maskDuration a, ok := true }],
            errorLog := st.errorLog } := by
        unfold maskStep
        simp [hm, hc]
      rw [hstep]
      refine ⟨?_, ?_, ?_⟩
      · rw [List.chain'_append]
        refine ⟨h.chain, List.chain'_singleton _, ?_⟩
        intro x hx y hy
        simp only [List.head?_cons, Option.mem_def, Option.some.injEq] at hy
        subst hy
        have hmem := List.mem_of_mem_getLast? hx
        have hb := h.bounds x hmem
        have hl := h.lastGap x hx
        exact ⟨hb.1, hl.1, fun hok => hl.2 hok (by have := hb.1; omega)⟩
      · intro c hc2
        rcases List.mem_append.mp hc2 with hcl | hcr
        · have hb := h.bounds c hcl
          exact ⟨by omega, hb.2⟩
        · simp only [List.mem_singleton] at hcr
          subst hcr
          exact ⟨Nat.lt_succ_self i, Nat.le_add_right _ _⟩
      · intro c hc2
        rw [List.getLast?_concat] at hc2
        have hce : c = { idx := i, startTime := st.time,
                         endTime := st.time + o.maskDuration a, ok := true } :=
          (Option.some.inj hc2).symm
        subst hce
        constructor
        · by_cases hlt : i < n - 1 <;> simp [hlt]
        · intro _ hidx
          have hidx2 : i + 1 < n := hidx
          have hlt : i < n - 1 := by omega
          simp [hlt]
    | error msg =>
      have hstep : maskStep o n i st a =
          { time := st.time + o.maskDuration a,
            masked := st.masked,
            calls := st.calls ++ [{ idx := i, startTime := st.time,
                                    endTime := st.time + o.maskDuration a, ok := false }],
            errorLog := st.errorLog ++ [msg] } := by
        unfold maskStep
        simp [hm, hc]
      rw [hstep]
      refine ⟨?_, ?_, ?_⟩
      · rw [List.chain'_append]
        refine ⟨h.chain, List.chain'_singleton _, ?_⟩
        intro x hx y hy
        simp only [List.head?_cons, Option.mem_def, Option.some.injEq] at hy
        subst hy
        have hmem := List.mem_of_mem_getLast? hx
        have hb := h.bounds x hmem
        have hl := h.lastGap x hx
        exact ⟨hb.1, hl.1, fun hok => hl.2 hok (by have := hb.1; omega)⟩
      · intro c hc2
        rcases List.mem_append.mp hc2 with hcl | hcr
        · have hb := h.bounds c hcl
          exact ⟨by omega, hb.2⟩
        · simp only [List.mem_singleton] at hcr
          subst hcr
          exact ⟨Nat.lt_succ_self i, Nat.le_add_right _ _⟩
      · intro c hc2
        rw [List.getLast?_concat] at hc2
        have hce : c = { idx := i, startTime := st.time,
                         endTime := st.time + o.maskDuration a, ok := false } :=
          (Option.some.inj hc2).symm
        subst hce
        exact ⟨Nat.le_refl _, fun hok => by simp at hok⟩
  · have hstep : maskStep o n i st a =
        { st with masked := st.masked ++ [{ asset := a, maskUrl := none }] } := by
      unfold maskStep
      simp [hm]
    rw [hstep]
    exact ⟨h.chain,
      fun c hc2 => ⟨by have := (h.bounds c hc2).1; omega, (h.bounds c hc2).2⟩,
      h.lastGap⟩

theorem maskInv_run (o : Oracle) (n : Nat) :
    ∀ (l : List PreparedAsset) (i : Nat) (st : MaskState), i + l.length = n →
      MaskInv n i st → MaskInv n n (maskRun o n i st l) := by
  intro l
  induction l with
  | nil =>
    intro i st hl h
    rw [maskRun]
    have : i = n := by simpa using hl
    exact this ▸ h
  | cons a rest ih =>
    intro i st hl h
    rw [maskRun]
    simp only [List.length_cons] at hl
    exact ih (i + 1) _ (by omega) (maskInv_step o n i st a (by omega) h)

/-- Conversely, every position that invokes the mask collaborator is the
position of a unit that needs a mask. -/
theorem of_mem_idxsFrom :
    ∀ (l : List PreparedAsset) (i j : Nat), j ∈ idxsFrom i l →
      ∃ k p, j = i + k ∧ l[k]? = some p ∧ p.needsMask = true := by
  intro l
  induction l with
  | nil => intro i j h; simp [idxsFrom] at h
  | cons a rest ih =>
    intro i j h
    rw [idxsFrom] at h
    rcases List.mem_append.mp h with h1 | h2
    · by_cases hm : a.needsMask = true
      · rw [if_pos hm] at h1
        simp only [List.mem_singleton] at h1
        exact ⟨0, a, by omega, by simp, hm⟩
      · rw [if_neg hm] at h1
        simp at h1
    · obtain ⟨k, p, hk, hget, hmask⟩ := ih (i + 1) j h2
      exact ⟨k + 1, p, by omega, by simpa using hget, hmask⟩

/-- Closed form of the Phase-3 aggregation: the report is the two
filterMap projections of the settled results, with the counters set to
their lengths. -/
theorem parallelFillAndOverlay_eq (o : Oracle) (ma : List MaskedAsset) :
    parallelFillAndOverlay o ma =
      { success := (finalResults o ma).filterMap okPart,
        failures := (finalResults o ma).filterMap errPart,
        summary := { total := ma.length, processed := (finalResults o ma).length,
                     succeeded := ((finalResults o ma).filterMap okPart).length,
                     failed := ((finalResults o ma).filterMap errPart).length } } := by
  unfold parallelFillAndOverlay
  rw [foldl_classify]
  simp

/-! Test fixtures: a one-category campaign, a local asset, a generated
asset, and oracles that force specific collaborator outcomes. -/

def region1 : Region :=
  { code := "US", background_prompt := "bg", message := "Hello", locale := "en-US" }

def cfg1 : CategoryConfig := { target_regions := [region1] }

def brief1 : Brief :=
  { product_categories := [("fragrances", cfg1)], aspect_ratios := ["1:1"] }

def localRef : AssetRef :=
  { type := .localFile, path := "assets/fragrances/a.png", category := "fragrances",
    filename := "a.png", isGenerated := false, downloadUrl := "", aspectRatio := none }

def oracleBase : Oracle :=
  { fsExists := fun _ => true,
    fsRead := fun _ => .ok 10,
    uploadExpand := fun _ _ _ => .ok "expanded-url",
    createMask := fun _ => .ok "mask-url",
    maskDuration := fun _ => 5,
    fillImage := fun _ => .ok "filled-url",
    getPresignedPutUrl := fun _ => .ok "put-url",
    addTextOverlay := fun _ _ _ => .ok (),
    getPresignedGetUrl := fun _ => .ok "get-url",
    timestamp := "2025-01-01_00-00-00" }

def c1Oracle : Oracle :=
  { oracleBase with uploadExpand := fun _ _ _ => .error "Upload failed" }

def brief2 : Brief :=
  { product_categories := [("shoes", cfg1)], aspect_ratios := ["1:1"] }

def brief3 : Brief :=
  { product_categories := [("fragrances", cfg1)], aspect_ratios := ["1:1", "16:9"] }

def c3Oracle : Oracle :=
  { oracleBase with
    uploadExpand := fun _ _ ratio =>
      if ratio = "16:9" then .error "Upload failed" else .ok "expanded-url" }

/-! Claim theorems. -/

/-- C1 counterexample: one local asset whose single upload/expand call
fails enters Expansion as one job, yet the final report has zero terminal
records (`len(success) + len(failures) = 0 ≠ 1`): a Phase-1 failure is
only logged and silently dropped, refuting the claim that every job
entering Expansion ends with exactly one terminal record. -/
theorem C1_cex :
    (uploadExpandTasks c1Oracle brief1 [localRef]).length = 1 ∧
    (processAssetsHybrid c1Oracle brief1 [localRef]).success.length +
      (processAssetsHybrid c1Oracle brief1 [localRef]).failures.length = 0 ∧
    (processAssetsHybrid c1Oracle brief1 [localRef]).success.length +
        (processAssetsHybrid c1Oracle brief1 [localRef]).failures.length ≠
      (uploadExpandTasks c1Oracle brief1 [localRef]).length := by
  decide

/-- C1 amended: `len(success) + len(failures)` equals the number of jobs
that survive Phases 1 and 2 (the final-stage input), not the number of
jobs that entered Expansion; `summary.processed` does equal
`len(success) + len(failures)`. -/
theorem C1_amended (o : Oracle) (brief : Brief) (refs : List AssetRef) :
    (processAssetsHybrid o brief refs).success.length +
        (processAssetsHybrid o brief refs).failures.length =
      (sequentialMaskCreation o (parallelUploadAndExpand o brief refs)).masked.length ∧
    (processAssetsHybrid o brief refs).summary.processed =
      (processAssetsHybrid o brief refs).success.length +
        (processAssetsHybrid o brief refs).failures.length := by
  unfold processAssetsHybrid
  rw [parallelFillAndOverlay_eq]
  constructor
  · rw [length_okPart_add_errPart]
    simp [finalResults]
  · rw [length_okPart_add_errPart]

/-- C2 counterexample: an asset reference whose category has no
configuration entry produces zero Phase-1 tasks and zero failure records
(the report is entirely empty), refuting the claim that it yields one
load-time failure record per (region × ratio) combination. -/
theorem C2_cex :
    uploadExpandTasks oracleBase brief2 [localRef] = [] ∧
    (processAssetsHybrid oracleBase brief2 [localRef]).failures = [] ∧
    (processAssetsHybrid oracleBase brief2 [localRef]).success = [] := by
  decide

/-- C2 amended: an asset reference whose category is unconfigured, or
whose load fails (unreadable or empty local file), is silently skipped:
it contributes no task, hence no job and no failure record anywhere. -/
theorem C2_amended (o : Oracle) (brief : Brief) (a : AssetRef)
    (h : brief.product_categories.lookup a.category = none ∨ okPart (loadAsset o a) = none) :
    expandTasksForAsset o brief a = [] := by
  unfold expandTasksForAsset
  rcases h with h | h
  · rw [h]
  · cases hl : brief.product_categories.lookup a.category with
    | none => rfl
    | some cfg =>
      cases he : loadAsset o a with
      | error e => rfl
      | ok nm => rw [he] at h; simp [okPart] at h

theorem C2_amended_witness :
    (brief2.product_categories.lookup localRef.category = none ∨
      okPart (loadAsset oracleBase localRef) = none) ∧
    expandTasksForAsset oracleBase brief2 localRef = [] :=
  ⟨Or.inl (by decide), C2_amended oracleBase brief2 localRef (Or.inl (by decide))⟩

/-- C3 counterexample: with one configured category × one region × two
ratios the configuration cardinality is 2, but when one of the two
upload/expand calls fails, the code reports `summary.total = 1` (the
final-stage input size), refuting the claim that `summary.total` is
computed from configuration cardinality independently of what ran. -/
theorem C3_cex :
    specConfigTotal brief3 = 2 ∧
    (processAssetsHybrid c3Oracle brief3 [localRef]).summary.total = 1 ∧
    (processAssetsHybrid c3Oracle brief3 [localRef]).summary.total ≠ specConfigTotal brief3 := by
  decide

/-- C3 amended: `summary.total` equals the number of jobs handed to the
final stage (those surviving Phases 1 and 2), which also equals
`summary.processed`; it is not the configuration cardinality. -/
theorem C3_amended (o : Oracle) (brief : Brief) (refs : List AssetRef) :
    (processAssetsHybrid o brief refs).summary.total =
      (sequentialMaskCreation o (parallelUploadAndExpand o brief refs)).masked.length ∧
    (processAssetsHybrid o brief refs).summary.total =
      (processAssetsHybrid o brief refs).summary.processed := by
  unfold processAssetsHybrid
  rw [parallelFillAndOverlay_eq]
  exact ⟨rfl, by simp [finalResults]⟩

/-- C9: for every oracle (so in particular even when every collaborator
call fails), a run that gets past expansion writes exactly one report,
once, at the end, under the run-timestamped name, and exits with status
0: per-job failures never change the exit status. -/
theorem C9_single_report (o : Oracle) (brief : Brief) (refs : List AssetRef) :
    (mainRun o brief refs).1 =
      [{ fileName := "./results-hybrid-" ++ o.timestamp ++ ".json",
         content := processAssetsHybrid o brief refs }] ∧
    (mainRun o brief refs).1.length = 1 ∧
    (mainRun o brief refs).2 = 0 :=
  ⟨rfl, rfl, rfl⟩

/-- C10: in every report built by the final-stage aggregator,
`summary.total = summary.processed` (both the final-stage input count),
`succeeded + failed = processed`, and each settled result contributes
exactly one entry to exactly one of the two outcome lists. -/
theorem C10_aggregator (o : Oracle) (ma : List MaskedAsset) :
    (parallelFillAndOverlay o ma).summary.total =
      (parallelFillAndOverlay o ma).summary.processed ∧
    (parallelFillAndOverlay o ma).summary.succeeded +
        (parallelFillAndOverlay o ma).summary.failed =
      (parallelFillAndOverlay o ma).summary.processed ∧
    (parallelFillAndOverlay o ma).success = (finalResults o ma).filterMap okPart ∧
    (parallelFillAndOverlay o ma).failures = (finalResults o ma).filterMap errPart ∧
    (parallelFillAndOverlay o ma).success.length +
        (parallelFillAndOverlay o ma).failures.length =
      (finalResults o ma).length ∧
    (parallelFillAndOverlay o ma).summary.succeeded =
      (parallelFillAndOverlay o ma).success.length ∧
    (parallelFillAndOverlay o ma).summary.failed =
      (parallelFillAndOverlay o ma).failures.length := by
  rw [parallelFillAndOverlay_eq]
  refine ⟨by simp [finalResults], ?_, rfl, rfl, ?_, rfl, rfl⟩
  · exact length_okPart_add_errPart _
  · exact length_okPart_add_errPart _

def p1 : PreparedAsset :=
  { assetRef := localRef, region := region1, ratio := "1:1", assetName := "a.png",
    imageUrl := "u1", needsMask := true }

def pB : PreparedAsset :=
  { assetRef := localRef, region := region1, ratio := "1:1", assetName := "b.png",
    imageUrl := "u2", needsMask := true }

def p3 : PreparedAsset :=
  { assetRef := localRef, region := region1, ratio := "1:1", assetName := "c.png",
    imageUrl := "u3", needsMask := true }

def c5Oracle : Oracle :=
  { oracleBase with
    createMask := fun p =>
      if p.assetName = "b.png" then .error "Mask failed" else .ok "mask-url" }

def c6Oracle : Oracle :=
  { oracleBase with
    createMask := fun p =>
      if p.assetName = "a.png" then .error "Mask failed" else .ok "mask-url" }

/-- C5: in the sequential mask stage, a unit whose mask-creation call
fails has its error recorded in the error log without halting the
sequence: every later unit still runs (its collaborator call happens if
it needs one) and its own outcome — masked asset or error — is recorded. -/
theorem C5_sequential_no_halt (o : Oracle) (l : List PreparedAsset) (i j : Nat)
    (pi pj : PreparedAsset) (e : String)
    (_hij : i < j) (hi : l[i]? = some pi) (hj : l[j]? = some pj)
    (hmask : pi.needsMask = true) (hfail : o.createMask pi = .error e) :
    e ∈ (sequentialMaskCreation o l).errorLog ∧
    (∀ m, maskOutcomeOf o pj = .ok m → m ∈ (sequentialMaskCreation o l).masked) ∧
    (∀ msg, maskOutcomeOf o pj = .error msg → msg ∈ (sequentialMaskCreation o l).errorLog) ∧
    (pj.needsMask = true → j ∈ (sequentialMaskCreation o l).calls.map MaskEvent.idx) := by
  have hmem_i : pi ∈ l := by
    obtain ⟨hlt, hrfl⟩ := List.getElem?_eq_some.mp hi
    exact hrfl ▸ List.getElem_mem hlt
  have hmem_j : pj ∈ l := by
    obtain ⟨hlt, hrfl⟩ := List.getElem?_eq_some.mp hj
    exact hrfl ▸ List.getElem_mem hlt
  unfold sequentialMaskCreation
  refine ⟨?_, ?_, ?_, ?_⟩
  · rw [maskRun_errorLog]
    simp only [List.nil_append]
    exact List.mem_filterMap.mpr
      ⟨pi, hmem_i, by simp [maskOutcomeOf, hmask, hfail, errPart]⟩
  · intro m hm
    rw [maskRun_masked]
    simp only [List.nil_append]
    exact List.mem_filterMap.mpr ⟨pj, hmem_j, by simp [hm, okPart]⟩
  · intro msg hmsg
    rw [maskRun_errorLog]
    simp only [List.nil_append]
    exact List.mem_filterMap.mpr ⟨pj, hmem_j, by simp [hmsg, errPart]⟩
  · intro hpj
    rw [maskRun_calls_idx]
    simp only [List.map_nil, List.nil_append]
    simpa using mem_idxsFrom pj hpj l 0 j hj

theorem C5_sequential_no_halt_witness :
    ((1 : Nat) < 2 ∧ ([p1, pB, p3])[1]? = some pB ∧ ([p1, pB, p3])[2]? = some p3 ∧
      pB.needsMask = true ∧ c5Oracle.createMask pB = .error "Mask failed") ∧
    ("Mask failed" ∈ (sequentialMaskCreation c5Oracle [p1, pB, p3]).errorLog ∧
     (∀ m, maskOutcomeOf c5Oracle p3 = .ok m →
       m ∈ (sequentialMaskCreation c5Oracle [p1, pB, p3]).masked) ∧
     (∀ msg, maskOutcomeOf c5Oracle p3 = .error msg →
       msg ∈ (sequentialMaskCreation c5Oracle [p1, pB, p3]).errorLog) ∧
     (p3.needsMask = true →
       2 ∈ (sequentialMaskCreation c5Oracle [p1, pB, p3]).calls.map MaskEvent.idx)) :=
  ⟨⟨by decide, by decide, by decide, by decide, by decide⟩,
    C5_sequential_no_halt c5Oracle [p1, pB, p3] 1 2 pB p3 "Mask failed"
      (by decide) (by decide) (by decide) (by decide) (by decide)⟩

/-- C6 counterexample: with two mask-needing units whose first
`createMask` call fails (taking 5ms), the second call starts at the very
instant the first ended — the 200ms sleep sits inside the `try` and is
skipped when the call throws — refuting the claim that consecutive
collaborator calls are always separated by at least the configured
minimum delay. -/
theorem C6_cex :
    (sequentialMaskCreation c6Oracle [p1, pB]).calls =
      [{ idx := 0, startTime := 0, endTime := 5, ok := false },
       { idx := 1, startTime := 5, endTime := 10, ok := true }] ∧
    ¬ List.Chain' (fun c₁ c₂ => c₁.endTime + 200 ≤ c₂.startTime)
        (sequentialMaskCreation c6Oracle [p1, pB]).calls := by
  have hcalls : (sequentialMaskCreation c6Oracle [p1, pB]).calls =
      [{ idx := 0, startTime := 0, endTime := 5, ok := false },
       { idx := 1, startTime := 5, endTime := 10, ok := true }] := by decide
  refine ⟨hcalls, ?_⟩
  rw [hcalls]
  intro h
  have h2 := (List.chain'_cons.mp h).1
  have h3 : (5 : Nat) + 200 ≤ 5 := h2
  omega

/-- C6 amended: the mask stage runs its collaborator calls strictly one
at a time in input order — consecutive calls have strictly increasing
input positions and non-decreasing timestamps (the next call starts no
earlier than the previous one ended) — and the (hardcoded) 200ms minimum
delay separates a call from its predecessor only when that predecessor
succeeded; after a failed call the next one may start immediately. -/
theorem C6_amended (o : Oracle) (l : List PreparedAsset) :
    List.Chain' callGap (sequentialMaskCreation o l).calls ∧
    ∀ c ∈ (sequentialMaskCreation o l).calls, c.startTime ≤ c.endTime := by
  have h0 : MaskInv l.length 0 { time := 0, masked := [], calls := [], errorLog := [] } :=
    ⟨List.chain'_nil, by simp, by simp⟩
  have h := maskInv_run o l.length l 0 _ (by simp) h0
  exact ⟨h.chain, fun c hc => (h.bounds c hc).2⟩

def genRef : AssetRef :=
  { type := .generated, path := "", category := "fragrances",
    filename := "frag_generated_1x1.jpg", isGenerated := true,
    downloadUrl := "gen-url", aspectRatio := some "1:1" }

def brief7 : Brief :=
  { product_categories := [("fragrances", cfg1)], aspect_ratios := ["1:1", "16:9", "9:16"] }

/-- C7: a ratio-restricted (generated) asset yields tasks only for its
one matching aspect ratio: every task it contributes carries that ratio,
and its task count is (number of its regions) × (occurrences of its
ratio in the configured ratio list) — zero for every other ratio, with
no failure record and no other contribution to totals. -/
theorem C7_ratio_restricted (o : Oracle) (brief : Brief) (a : AssetRef) (r : String)
    (cfg : CategoryConfig) (hg : a.isGenerated = true) (ht : a.type = AssetType.generated)
    (hr : a.aspectRatio = some r)
    (hcfg : brief.product_categories.lookup a.category = some cfg) :
    (∀ t ∈ expandTasksForAsset o brief a, t.taskRatio = r) ∧
    (expandTasksForAsset o brief a).length =
      cfg.target_regions.length * brief.aspect_ratios.count r := by
  have hload : loadAsset o a = .ok a.filename := by
    unfold loadAsset
    rw [ht]
  have hfun : ∀ (region : Region) (nm : String) (ρ : String),
      (if a.isGenerated = true ∧ a.aspectRatio ≠ some ρ then none
       else if a.isGenerated = true then
         some (Task.resolved
           { assetRef := a, region := region, ratio := ρ, assetName := nm,
             imageUrl := a.downloadUrl, needsMask := false })
       else some (Task.callUpload a region ρ nm)) =
      (if ρ = r then
         some (Task.resolved
           { assetRef := a, region := region, ratio := ρ, assetName := nm,
             imageUrl := a.downloadUrl, needsMask := false })
       else none) := by
    intro region nm ρ
    by_cases hρ : ρ = r
    · subst hρ
      simp [hg, hr]
    · have hne : ¬(r = ρ) := fun hh => hρ hh.symm
      simp [hg, hr, hρ, hne]
  have hexp : expandTasksForAsset o brief a =
      cfg.target_regions.flatMap (fun region =>
        brief.aspect_ratios.filterMap (fun ρ =>
          if ρ = r then
            some (Task.resolved
              { assetRef := a, region := region, ratio := ρ,
                assetName := a.filename, imageUrl := a.downloadUrl,
                needsMask := false })
          else none)) := by
    unfold expandTasksForAsset
    rw [hcfg, hload]
    simp only [hfun]
  constructor
  · intro t ht2
    rw [hexp] at ht2
    obtain ⟨region, _, ht3⟩ := List.mem_flatMap.mp ht2
    obtain ⟨ρ, _, hsome⟩ := List.mem_filterMap.mp ht3
    by_cases hρ : ρ = r
    · rw [if_pos hρ] at hsome
      have := Option.some.inj hsome
      rw [← this, Task.taskRatio]
      exact hρ
    · rw [if_neg hρ] at hsome
      exact absurd hsome (by simp)
  · rw [hexp]
    apply length_flatMap_const
    intro region
    exact length_filterMap_ratio
      (fun ρ => Task.resolved
        { assetRef := a, region := region, ratio := ρ, assetName := a.filename,
          imageUrl := a.downloadUrl, needsMask := false })
      r brief.aspect_ratios

theorem C7_ratio_restricted_witness :
    (genRef.isGenerated = true ∧ genRef.type = AssetType.generated ∧
      genRef.aspectRatio = some "1:1" ∧
      brief7.product_categories.lookup genRef.category = some cfg1) ∧
    ((∀ t ∈ expandTasksForAsset oracleBase brief7 genRef, t.taskRatio = "1:1") ∧
     (expandTasksForAsset oracleBase brief7 genRef).length =
       cfg1.target_regions.length * brief7.aspect_ratios.count "1:1") :=
  ⟨⟨rfl, rfl, rfl, by decide⟩,
    C7_ratio_restricted oracleBase brief7 genRef "1:1" cfg1 rfl rfl rfl (by decide)⟩

/-- C8: a generated asset takes the fast path inside the same pipeline:
each of its Phase-1 tasks is already resolved with the generation URL as
prepared-image handle and `needsMask = false`; in any batch — mixed with
normal mask-needing jobs or not — the mask stage's output is the
uniform per-unit `maskOutcomeOf` filterMap, which passes every fast-path
unit through with a null mask handle, and a position holding a fast-path
unit never invokes the mask collaborator; and the pipeline feeds the
mask stage's output to the same final parallel stage and aggregation as
every other job. -/
theorem C8_fast_path (o : Oracle) (brief : Brief) (a : AssetRef)
    (hg : a.isGenerated = true) (_ht : a.type = AssetType.generated) :
    (∀ t ∈ expandTasksForAsset o brief a, ∃ p, t = Task.resolved p ∧
      p.imageUrl = a.downloadUrl ∧ p.needsMask = false ∧ p.assetRef = a) ∧
    (∀ l : List PreparedAsset,
      (sequentialMaskCreation o l).masked =
        l.filterMap (fun q => okPart (maskOutcomeOf o q))) ∧
    (∀ p : PreparedAsset, p.needsMask = false →
      maskOutcomeOf o p = .ok { asset := p, maskUrl := none }) ∧
    (∀ (l : List PreparedAsset) (j : Nat) (p : PreparedAsset),
      l[j]? = some p → p.needsMask = false →
        ({ asset := p, maskUrl := none } : MaskedAsset) ∈
          (sequentialMaskCreation o l).masked ∧
        j ∉ (sequentialMaskCreation o l).calls.map MaskEvent.idx) ∧
    (∀ refs, processAssetsHybrid o brief refs =
      parallelFillAndOverlay o
        (sequentialMaskCreation o (parallelUploadAndExpand o brief refs)).masked) := by
  refine ⟨?_, ?_, ?_, ?_, fun refs => rfl⟩
  · intro t ht2
    unfold expandTasksForAsset at ht2
    cases hcfg : brief.product_categories.lookup a.category with
    | none => rw [hcfg] at ht2; simp at ht2
    | some cfg =>
      rw [hcfg] at ht2
      cases hload : loadAsset o a with
      | error e => rw [hload] at ht2; simp at ht2
      | ok nm =>
        rw [hload] at ht2
        obtain ⟨region, _, ht3⟩ := List.mem_flatMap.mp ht2
        obtain ⟨ρ, _, hsome⟩ := List.mem_filterMap.mp ht3
        by_cases hcond : a.isGenerated = true ∧ a.aspectRatio ≠ some ρ
        · rw [if_pos hcond] at hsome
          exact absurd hsome (by simp)
        · rw [if_neg hcond, if_pos hg] at hsome
          exact ⟨_, (Option.some.inj hsome).symm, rfl, rfl, rfl⟩
  · intro l
    unfold sequentialMaskCreation
    rw [maskRun_masked]
    simp
  · intro p hp
    simp [maskOutcomeOf, hp]
  · intro l j p hget hp
    constructor
    · have hmem : p ∈ l := by
        obtain ⟨hlt, hrfl⟩ := List.getElem?_eq_some.mp hget
        exact hrfl ▸ List.getElem_mem hlt
      unfold sequentialMaskCreation
      rw [maskRun_masked]
      simp only [List.nil_append]
      exact List.mem_filterMap.mpr ⟨p, hmem, by simp [maskOutcomeOf, hp, okPart]⟩
    · unfold sequentialMaskCreation
      rw [maskRun_calls_idx]
      simp only [List.map_nil, List.nil_append]
      intro hj
      obtain ⟨k, q, hk, hgetk, hmask⟩ := of_mem_idxsFrom l 0 j hj
      have hkj : k = j := by omega
      subst hkj
      rw [hget] at hgetk
      have hpq : p = q := Option.some.inj hgetk
      rw [← hpq, hp] at hmask
      exact Bool.false_ne_true hmask

def pGen : PreparedAsset :=
  { assetRef := genRef, region := region1, ratio := "1:1",
    assetName := "frag_generated_1x1.jpg", imageUrl := "gen-url", needsMask := false }

theorem C8_fast_path_witness :
    (genRef.isGenerated = true ∧ genRef.type = AssetType.generated) ∧
    ((∀ t ∈ expandTasksForAsset oracleBase brief7 genRef, ∃ p, t = Task.resolved p ∧
        p.imageUrl = genRef.downloadUrl ∧ p.needsMask = false ∧ p.assetRef = genRef) ∧
     (∀ l : List PreparedAsset,
        (sequentialMaskCreation oracleBase l).masked =
          l.filterMap (fun q => okPart (maskOutcomeOf oracleBase q))) ∧
     (∀ p : PreparedAsset, p.needsMask = false →
        maskOutcomeOf oracleBase p = .ok { asset := p, maskUrl := none }) ∧
     (∀ (l : List PreparedAsset) (j : Nat) (p : PreparedAsset),
        l[j]? = some p → p.needsMask = false →
          ({ asset := p, maskUrl := none } : MaskedAsset) ∈
            (sequentialMaskCreation oracleBase l).masked ∧
          j ∉ (sequentialMaskCreation oracleBase l).calls.map MaskEvent.idx) ∧
     (∀ refs, processAssetsHybrid oracleBase brief7 refs =
        parallelFillAndOverlay oracleBase
          (sequentialMaskCreation oracleBase
            (parallelUploadAndExpand oracleBase brief7 refs)).masked)) ∧
    (([p1, pGen])[1]? = some pGen ∧ pGen.needsMask = false ∧ p1.needsMask = true ∧
     ({ asset := pGen, maskUrl := none } : MaskedAsset) ∈
       (sequentialMaskCreation oracleBase [p1, pGen]).masked ∧
     1 ∉ (sequentialMaskCreation oracleBase [p1, pGen]).calls.map MaskEvent.idx) :=
  ⟨⟨rfl, rfl⟩, C8_fast_path oracleBase brief7 genRef rfl rfl,
    by decide, by decide, by decide,
    (C8_fast_path oracleBase brief7 genRef rfl rfl).2.2.2.1
      [p1, pGen] 1 pGen (by decide) (by decide)⟩

def m1 : MaskedAsset := { asset := p1, maskUrl := some "mask-url" }

def m2 : MaskedAsset := { asset := pB, maskUrl := some "mask-url" }

def c4Oracle : Oracle :=
  { oracleBase with
    fillImage := fun m =>
      if m.asset.assetName = "a.png" then .error "Fill failed" else .ok "filled-url" }

/-- C4: the parallel stage runners settle every unit and attribute each
settled result to its own job independently of completion order — for
any completion order (any permutation of the indexed final-stage or
Phase-1 outcomes), the slot array ends up exactly the input-ordered
outcome list, with every slot filled — and the recorded outcome at a
position depends only on that position's unit, so a rejection in one
unit cannot change any sibling's recorded outcome. -/
theorem C4_parallel_runner :
    (∀ (o : Oracle) (jobs : List MaskedAsset)
        (completions : List (Nat × Except FailureData SuccessData)),
      completions.Perm (finalResults o jobs).enum →
        fillSlots (finalResults o jobs).length completions =
          (finalResults o jobs).map some) ∧
    (∀ (o : Oracle) (tasks : List Task)
        (completions : List (Nat × Except String PreparedAsset)),
      completions.Perm ((tasks.map (taskOutcome o)).enum) →
        fillSlots (tasks.map (taskOutcome o)).length completions =
          (tasks.map (taskOutcome o)).map some) ∧
    (∀ (o : Oracle) (jobs₁ jobs₂ : List MaskedAsset) (i : Nat),
      jobs₁[i]? = jobs₂[i]? →
        (finalResults o jobs₁)[i]? = (finalResults o jobs₂)[i]?) ∧
    (∀ (o : Oracle) (tasks₁ tasks₂ : List Task) (i : Nat),
      tasks₁[i]? = tasks₂[i]? →
        (tasks₁.map (taskOutcome o))[i]? = (tasks₂.map (taskOutcome o))[i]?) := by
  refine ⟨?_, ?_, ?_, ?_⟩
  · intro o jobs completions h
    exact fillSlots_of_perm _ completions h
  · intro o tasks completions h
    exact fillSlots_of_perm _ completions h
  · intro o j1 j2 i h
    unfold finalResults
    rw [List.getElem?_map, List.getElem?_map, h]
  · intro o t1 t2 i h
    rw [List.getElem?_map, List.getElem?_map, h]

theorem C4_parallel_runner_witness :
    ((finalResults c4Oracle [m1, m2]).enum.reverse.Perm
      (finalResults c4Oracle [m1, m2]).enum) ∧
    fillSlots (finalResults c4Oracle [m1, m2]).length
        (finalResults c4Oracle [m1, m2]).enum.reverse =
      (finalResults c4Oracle [m1, m2]).map some :=
  ⟨by decide, C4_parallel_runner.1 c4Oracle [m1, m2]
    (finalResults c4Oracle [m1, m2]).enum.reverse (by decide)⟩

end CA
